import Mathlib

/-!
Verification of `scripts/micro_benchmarks.py`: a shallow embedding of the
option-validation and invocation-construction pipeline, together with proofs
about argument assembly, target validation, stage sequencing and the
top-level error handling.

Conventions of the embedding:
* Python strings are Lean `String`s; Python `None`-able values are `Option`s.
* Python truthiness of an optional string / list (`if args.category:`) is made
  explicit: `none` and the empty string / empty list are falsy.
* Machinery of the Python standard library that the script's behaviour depends
  on (argparse `choices` checking, the `csv` reader dialect) is embedded
  faithfully where the claims need it.
* External collaborators (the dotnet project object, the logger, the
  filesystem) are modelled as oracles / explicit state; each external
  invocation is recorded as an `Event` so that sequencing properties are about
  the produced trace.
-/

namespace MicroBenchmarks

/-! ## Data model: validated options (`RunOptions`)

Mirrors the attributes that `__process_arguments` produces on the argparse
namespace and that `__main` consumes. -/

structure RunOptions where
  configuration : String
  frameworks : List String
  incremental : String
  verbose : Bool
  category : Option String
  corerun : Option String
  cli : Option String
  enable_pmc : Bool
  filter : Option (List String)
  bdn_arguments : Option (List String)
deriving DecidableEq

/-- Python truthiness of an optional string: `None` and `''` are falsy. -/
def truthyStr : Option String → Bool
  | none => false
  | some s => !(s == "")

/-- Python truthiness of an optional list: `None` and `[]` are falsy. -/
def truthyList : Option (List String) → Bool
  | none => false
  | some l => !(l.isEmpty)

/-- The fixed payload of the `--counters` flag (micro_benchmarks.py line 302). -/
def pmcCounters : String := "BranchMispredictions+CacheMisses+InstructionRetired"

/-- The per-target extra argument list assembled inside the `for framework in
frameworks` loop of `__main` (micro_benchmarks.py lines 292-309): starts as
`['--']` and is extended by conditional appends, in source order. -/
def buildRunArgs (args : RunOptions) : List String :=
  let run_args := ["--"]
  let run_args :=
    if truthyStr args.category then
      run_args ++ ["--allCategories", args.category.getD ""]
    else run_args
  let run_args :=
    if truthyStr args.corerun then
      run_args ++ ["--coreRun", args.corerun.getD ""]
    else run_args
  let run_args :=
    if truthyStr args.cli then
      run_args ++ ["--cli", args.cli.getD ""]
    else run_args
  let run_args :=
    if args.enable_pmc then
      run_args ++ ["--counters", pmcCounters]
    else run_args
  let run_args :=
    if truthyList args.filter then
      run_args ++ ["--filter"] ++ args.filter.getD []
    else run_args
  let run_args :=
    if truthyList args.bdn_arguments then
      run_args ++ args.bdn_arguments.getD []
    else run_args
  run_args

/-- What argument parsing guarantees about the option record: optional string
options are never stored as the empty string (`--category` is constrained by
`choices`, `--corerun`/`--cli` go through `path.abspath` of an existing file),
`--filter` uses `nargs='+'` so a supplied filter list is non-empty, and
`--frameworks` is required with `nargs='+'`. -/
def ValidatedRunOptions (a : RunOptions) : Prop :=
  a.category ≠ some "" ∧ a.corerun ≠ some "" ∧ a.cli ≠ some "" ∧
    a.filter ≠ some [] ∧ a.frameworks ≠ []

/-! ## Supported target frameworks and `TargetFrameworkAction` -/

/-- Keys of `TargetFrameworkAction.__get_framework_channel_map` (lines 64-69),
in the source's insertion order. -/
def frameworkChannelKeys : List String :=
  ["netcoreapp3.0", "netcoreapp2.2", "netcoreapp2.1", "netcoreapp2.0"]

/-- `TargetFrameworkAction.get_supported_target_frameworks` (lines 51-59):
the channel-map keys, plus `net461` when running on Windows. -/
def get_supported_target_frameworks (isWin32 : Bool) : List String :=
  frameworkChannelKeys ++ (if isWin32 then ["net461"] else [])

/-- The `wrong_choices` list accumulated by `TargetFrameworkAction.__call__`
(lines 38-44): every supplied value not in the supported set, in input order. -/
def wrongChoices (supported values : List String) : List String :=
  values.filter (fun v => !(supported.contains v))

/-- The combined error message of `TargetFrameworkAction.__call__`
(lines 46-47). -/
def invalidChoicesMessage (supported values : List String) : String :=
  "Invalid choice(s): " ++ String.intercalate ", " (wrongChoices supported values)

/-- `list(set(values))`: CPython builds a hash set of the values and lists it
in set iteration order, which is unspecified (and, for strings, varies with
hash randomisation).  The embedding therefore only constrains the result: it
is duplicate-free and has exactly the members of the input. -/
def isPySetList (values out : List String) : Prop :=
  out.Nodup ∧ (∀ x ∈ out, x ∈ values) ∧ (∀ x ∈ values, x ∈ out)

/-- Result of invoking an argparse action / the parser on one argument. -/
inductive ActionResult
  | raised (msg : String)
  | stored (dest : List String)
  | nothing
deriving DecidableEq

/-- `TargetFrameworkAction.__call__` (lines 36-49): with falsy `values` it does
nothing; with a non-empty `wrong_choices` it raises `ArgumentError` with the
combined message; otherwise it stores `list(set(values))`, whose order the
embedding leaves unspecified (see `isPySetList`). -/
def targetFrameworkCall (supported values : List String) (res : ActionResult) : Prop :=
  if values = [] then res = .nothing
  else if wrongChoices supported values = [] then
    ∃ out, res = .stored out ∧ isPySetList values out
  else res = .raised (invalidChoicesMessage supported values)

/-- argparse's `_get_values`/`_check_value` step for an argument declared with
`choices` and `nargs='+'`: each converted value is checked against the choices
list in order, and an `ArgumentError` naming only the first offending value is
raised (CPython `argparse._check_value`). -/
def argparseCheckChoices (choices : List String) : List String → Option String
  | [] => none
  | v :: vs =>
    if choices.contains v then argparseCheckChoices choices vs
    else some ("invalid choice: '" ++ v ++ "' (choose from " ++
      String.intercalate ", " (choices.map (fun c => "'" ++ c ++ "'")) ++ ")")

/-- The full parsing behaviour of the `--frameworks` argument, as declared
in `add_arguments` (lines 113-122): argparse first checks every value against
`choices=supported_target_frameworks` and raises on the first mismatch; only
when all values pass is `TargetFrameworkAction.__call__` invoked. -/
def frameworksParse (supported values : List String) (res : ActionResult) : Prop :=
  match argparseCheckChoices supported values with
  | some msg => res = .raised msg
  | none => targetFrameworkCall supported values res

/-- The message argparse's choices pre-check produces for
`--frameworks bogus1 netcoreapp3.0 bogus2` on a non-Windows host: it names
only the first invalid value. -/
def firstInvalidMsg : String :=
  "invalid choice: 'bogus1' (choose from 'netcoreapp3.0', " ++
    "'netcoreapp2.2', 'netcoreapp2.1', 'netcoreapp2.0')"

/-- Deduplication that keeps the first occurrence of each element, preserving
first-seen order; the order the specification ascribes to the stored target
list.  `seen` accumulates the elements already emitted. -/
def dedupFirstOccAux (seen : List String) : List String → List String
  | [] => []
  | x :: xs =>
    if seen.contains x then dedupFirstOccAux seen xs
    else x :: dedupFirstOccAux (x :: seen) xs

/-- First-occurrence-order deduplication of a list. -/
def dedupFirstOcc (l : List String) : List String := dedupFirstOccAux [] l

/-- Substring test used to state facts about error messages. -/
def takeStart : List Char → List Char → Bool
  | [], _ => true
  | _ :: _, [] => false
  | a :: as, b :: bs => a == b && takeStart as bs

/-- `subSeqAt needle hay`: `needle` occurs contiguously somewhere in `hay`. -/
def subSeqAt (needle : List Char) : List Char → Bool
  | [] => takeStart needle []
  | c :: t => takeStart needle (c :: t) || subSeqAt needle t

/-- `strMentions needle hay`: `needle` is a substring of `hay`. -/
def strMentions (needle hay : String) : Bool := subSeqAt needle.data hay.data

/-! ## Build configuration validation -/

/-- `get_supported_configurations` (lines 81-86). -/
def get_supported_configurations : List String := ["Release", "Debug"]

/-- Python `str.casefold`, restricted to the ASCII range, which is the range
exercised by the supported-configuration set (`casefold` and `lower` agree on
ASCII input). -/
def casefold (s : String) : String := String.mk (s.data.map Char.toLower)

/-- `dotnet_configuration` (lines 93-99): return the first supported
configuration whose casefold equals the input's casefold, else raise
`ArgumentTypeError` naming the input verbatim. -/
def dotnet_configuration (configuration : String) : Except String String :=
  match get_supported_configurations.find?
      (fun config => casefold config == casefold configuration) with
  | some config => .ok config
  | none => .error ("Unknown configuration: " ++ configuration ++ ".")

/-! ## Pass-through argument tokenization (`__get_bdn_arguments`)

`__get_bdn_arguments` (lines 181-186) feeds the raw string to `csv.reader`
with `delimiter=' '` (otherwise the default dialect: `quotechar` is the double
quote, doubled quotes stand for a literal quote, no escape character,
non-strict) and returns the first record the reader yields, or `[]` when the
reader yields nothing (empty input). -/

/-- Parser states of the CPython `_csv` reader restricted to what the default
dialect with a space delimiter can reach: start of record, start of field,
inside an unquoted field, inside a quoted field, just after a quote character
inside a quoted field. -/
inductive CsvState
  | startRecord
  | startField
  | inField
  | inQuotedField
  | quoteAfterQuoted
deriving DecidableEq

/-- Record terminators recognised by the reader. -/
def isEol (c : Char) : Bool := c == '\n' || c == '\r'

/-- Run the CPython csv state machine over the character stream until the
first record is complete (an unquoted end-of-line, or the end of the input),
and return that record's fields.  `field` is the current field's characters in
reverse; `fields` are the completed fields in reverse. -/
def csvFirstRecord : CsvState → List Char → List String → List Char → List String
  | st, field, fields, [] =>
    -- end of data: an untouched record yields no fields; otherwise the
    -- pending field is saved (non-strict dialect) and the record ends
    match st with
    | .startRecord => fields.reverse
    | _ => (((String.mk field.reverse) :: fields).reverse)
  | st, field, fields, c :: rest =>
    match st with
    | .startRecord =>
      if isEol c then fields.reverse
      else if c == '"' then csvFirstRecord .inQuotedField field fields rest
      else if c == ' ' then csvFirstRecord .startField [] ("" :: fields) rest
      else csvFirstRecord .inField [c] fields rest
    | .startField =>
      if isEol c then (((String.mk field.reverse) :: fields).reverse)
      else if c == '"' then csvFirstRecord .inQuotedField field fields rest
      else if c == ' ' then csvFirstRecord .startField [] ("" :: fields) rest
      else csvFirstRecord .inField [c] fields rest
    | .inField =>
      if isEol c then (((String.mk field.reverse) :: fields).reverse)
      else if c == ' ' then
        csvFirstRecord .startField [] ((String.mk field.reverse) :: fields) rest
      else csvFirstRecord .inField (c :: field) fields rest
    | .inQuotedField =>
      if c == '"' then csvFirstRecord .quoteAfterQuoted field fields rest
      else csvFirstRecord .inQuotedField (c :: field) fields rest
    | .quoteAfterQuoted =>
      if c == '"' then csvFirstRecord .inQuotedField (c :: field) fields rest
      else if c == ' ' then
        csvFirstRecord .startField [] ((String.mk field.reverse) :: fields) rest
      else if isEol c then (((String.mk field.reverse) :: fields).reverse)
      else csvFirstRecord .inField (c :: field) fields rest

/-- `__get_bdn_arguments` (lines 181-186).  For empty input the reader yields
no record and the function's final `return []` fires; the state machine
returns `[]` for that input as well, so no special case is needed. -/
def get_bdn_arguments (user_input : String) : List String :=
  csvFirstRecord .startRecord [] [] user_input.data

/-! ## External invocations, stage sequencing and the top-level handler -/

/-- The exception classes distinguished by `__main`'s handlers
(lines 315-326): `CalledProcessError` from a non-zero external process,
`IOError`, `SystemExit` thrown by argparse, and anything else. -/
inductive TopException
  | calledProcess (cmd : String) (returncode : Int)
  | ioError (errno : Int) (strerror : String) (filename : String)
  | systemExit (code : Int)
  | unexpected (desc : String)
deriving DecidableEq

/-- Outcome of one external invocation: `none` is success, `some e` means the
call raised `e`. -/
abbrev Outcome := Option TopException

/-- Oracle for the external collaborators: the outcomes of `dotnet.info`, the
project's `restore`, `build`, and per-framework `run` invocations. -/
structure ExternalTool where
  infoOutcome : Outcome
  restoreOutcome : Outcome
  buildOutcome : Outcome
  runOutcome : String → Outcome

/-- Observable external effects of the pipeline, in order of occurrence. -/
inductive Event
  | removeDir (p : String)
  | infoCall
  | restoreCall (packagesPath : String)
  | buildCall (configuration : String) (frameworks : List String)
  | runCall (configuration : String) (framework : String) (extraArgs : List String)
deriving DecidableEq

def Event.isRemoveDir : Event → Bool
  | .removeDir _ => true
  | _ => false

def Event.isBuildCall : Event → Bool
  | .buildCall _ _ => true
  | _ => false

def Event.isRunCall : Event → Bool
  | .runCall _ _ _ => true
  | _ => false

/-- `os.path.join` for the forward-slash paths the script assembles. -/
def pathJoin (a b : String) : String := a ++ "/" ++ b

/-- `path.join(get_repo_root_path(), 'packages')` (line 224), with the
repository root an oracle string. -/
def packagesPath (repoRoot : String) : String := pathJoin repoRoot "packages"

/-- `BENCHMARKS_CSPROJ.working_directory` (lines 266-270). -/
def workingDirectory (repoRoot : String) : String :=
  pathJoin (pathJoin (pathJoin repoRoot "src") "benchmarks") "micro"

/-- The `binary_folders` removed when `incremental == 'no'` (lines 228-232). -/
def binaryFolders (repoRoot : String) : List String :=
  [packagesPath repoRoot,
   pathJoin (workingDirectory repoRoot) "bin",
   pathJoin (workingDirectory repoRoot) "obj"]

/-- Modelled from the spec: `remove_directory` comes from `performance.common`,
which is not under `src/`; §6 of the spec describes it as "a directory-removal
function (idempotent — missing directory is not an error)".  The filesystem is
the list of existing directories; removal of an absent directory is a no-op
and never an error. -/
def remove_directory (fs : List String) (p : String) : List String :=
  fs.filter (fun q => !(q == p))

/-- The `build` function of the script (lines 217-244): when
`incremental == 'no'`, remove the packages/bin/obj folders; then invoke
restore; on success invoke build once with the full framework list.  Returns
the event trace, the resulting filesystem, and the first raised exception (if
any), which propagates to `__main`. -/
def buildStage (tool : ExternalTool) (repoRoot configuration : String)
    (frameworks : List String) (incremental : String) (fs : List String) :
    List Event × List String × Outcome :=
  let cleaned :=
    if incremental = "no" then
      ((binaryFolders repoRoot).map Event.removeDir,
       (binaryFolders repoRoot).foldl remove_directory fs)
    else ([], fs)
  let tr := cleaned.1 ++ [Event.restoreCall (packagesPath repoRoot)]
  match tool.restoreOutcome with
  | some e => (tr, cleaned.2, some e)
  | none =>
    (tr ++ [Event.buildCall configuration frameworks], cleaned.2, tool.buildOutcome)

/-- The `for framework in frameworks` loop of `__main` (lines 291-312): invoke
`run` once per framework, stopping at the first raised exception. -/
def runLoop (tool : ExternalTool) (configuration : String) (extra : List String) :
    List String → List Event × Outcome
  | [] => ([], none)
  | f :: fsr =>
    let ev := Event.runCall configuration f extra
    match tool.runOutcome f with
    | some e => ([ev], some e)
    | none =>
      let r := runLoop tool configuration extra fsr
      (ev :: r.1, r.2)

/-- The body of `__main`'s `try` block after argument parsing succeeded
(lines 286-314): `dotnet.info`, then `build`, then one `run` per framework;
the first raised exception aborts everything after it. -/
def pipelineRun (tool : ExternalTool) (repoRoot : String) (a : RunOptions)
    (fs : List String) : List Event × Outcome :=
  match tool.infoOutcome with
  | some e => ([Event.infoCall], some e)
  | none =>
    let b := buildStage tool repoRoot a.configuration a.frameworks a.incremental fs
    match b.2.2 with
    | some e => (Event.infoCall :: b.1, some e)
    | none =>
      let r := runLoop tool a.configuration (buildRunArgs a) a.frameworks
      (Event.infoCall :: (b.1 ++ r.1), r.2)

/-- The whole-process world: outcomes of `validate_supported_runtime`, of
argument parsing (argparse raises `SystemExit` for help and for parse
errors), and of the external tool, plus the repository root and filesystem. -/
structure World where
  runtimeOutcome : Outcome
  parseResult : Except TopException RunOptions
  tool : ExternalTool
  repoRoot : String
  fs : List String

/-- The first exception reaching `__main`'s handlers, if any (the body of the
`try` block, lines 274-314). -/
def raisedException (w : World) : Outcome :=
  match w.runtimeOutcome with
  | some e => some e
  | none =>
    match w.parseResult with
    | .error e => some e
    | .ok a => (pipelineRun w.tool w.repoRoot a w.fs).2

/-- The error lines logged by `__main`'s `except` clauses (lines 315-326):
`CalledProcessError` and `IOError` log one line each, `SystemExit` logs
nothing (`pass`), anything else logs the generic line plus the traceback. -/
def exceptionLog : TopException → List String
  | .calledProcess cmd rc =>
    ["Command: \"" ++ cmd ++ "\", exited with status: " ++ toString rc]
  | .ioError errno strerror filename =>
    ["I/O error (" ++ toString errno ++ "): " ++ strerror ++ ": " ++ filename]
  | .systemExit _ => []
  | .unexpected desc => ["Unexpected error: " ++ desc, desc]

/-- The error lines `__main` logs for a whole execution. -/
def microMainLog (w : World) : List String :=
  match raisedException w with
  | none => []
  | some e => exceptionLog e

/-- `__main`'s return value (line 314 / line 326): `0` when the `try` body
completes, `1` whenever any handled exception was raised — every `except`
branch, including the `SystemExit` one, falls through to `return 1`. -/
def microMainExitCode (w : World) : Nat :=
  match raisedException w with
  | none => 0
  | some _ => 1

/-! ## Concrete fixtures used by witnesses and counterexamples -/

/-- An external tool whose every invocation succeeds. -/
def allSuccessTool : ExternalTool :=
  { infoOutcome := none, restoreOutcome := none, buildOutcome := none,
    runOutcome := fun _ => none }

/-- An external tool whose restore invocation exits non-zero (raising
`CalledProcessError`) while everything else would succeed. -/
def restoreFailTool : ExternalTool :=
  { infoOutcome := none,
    restoreOutcome := some (.calledProcess "dotnet restore" 1),
    buildOutcome := none, runOutcome := fun _ => none }

/-- The option record of spec §8's run-stage example: category `coreclr`,
a corerun path, hardware counters on, two filter patterns, and the
pass-through tokens of `--bdn-arguments "--iterations 5"`. -/
def specExampleOptions : RunOptions :=
  { configuration := "Release", frameworks := ["netcoreapp3.0"],
    incremental := "yes", verbose := false, category := some "coreclr",
    corerun := some "/tools/corerun", cli := none, enable_pmc := true,
    filter := some ["*Sort*", "*Hash*"],
    bdn_arguments := some ["--iterations", "5"] }

/-- A minimal option record: only the required options, no optional flags. -/
def plainOptions : RunOptions :=
  { configuration := "Release", frameworks := ["netcoreapp3.0"],
    incremental := "yes", verbose := false, category := none, corerun := none,
    cli := none, enable_pmc := false, filter := none, bdn_arguments := none }

/-- Options with two target frameworks, no optional flags, `incremental=no`. -/
def twoTargetOptions : RunOptions :=
  { configuration := "Release",
    frameworks := ["netcoreapp2.1", "netcoreapp3.0"], incremental := "no",
    verbose := false, category := none, corerun := none, cli := none,
    enable_pmc := false, filter := none, bdn_arguments := none }

/-- The world in which argparse performed a user-initiated early exit
(`--help`): parsing raises `SystemExit(0)`. -/
def helpWorld : World :=
  { runtimeOutcome := none, parseResult := .error (.systemExit 0),
    tool := allSuccessTool, repoRoot := "/repo", fs := [] }

/-! ## Helper lemmas -/

theorem append_if_nonempty (X m : List String) :
    (if !m.isEmpty then X ++ m else X) = X ++ m := by
  cases m <;> simp

theorem runLoop_success_trace (tool : ExternalTool) (c : String)
    (x : List String) :
    ∀ l, (runLoop tool c x l).2 = none →
      (runLoop tool c x l).1 = l.map (fun f => Event.runCall c f x) := by
  intro l
  induction l with
  | nil => intro _; rfl
  | cons f fsr ih =>
    intro h
    simp only [runLoop] at h ⊢
    cases hro : tool.runOutcome f with
    | some e => rw [hro] at h; simp at h
    | none =>
      rw [hro] at h
      simp at h
      simpa using ih h

theorem filter_events_of_run_map (c : String) (x : List String)
    (l : List String) :
    ((l.map (fun f => Event.runCall c f x)).filter Event.isRunCall =
        l.map (fun f => Event.runCall c f x)) ∧
      ((l.map (fun f => Event.runCall c f x)).filter Event.isBuildCall = []) := by
  induction l with
  | nil => exact ⟨rfl, rfl⟩
  | cons f fsr ih =>
    simp only [List.map_cons, List.filter_cons]
    simp [Event.isRunCall, Event.isBuildCall, ih.1, ih.2]

theorem buildStage_success_trace (tool : ExternalTool) (r c : String)
    (fws : List String) (inc : String) (fs : List String)
    (h : (buildStage tool r c fws inc fs).2.2 = none) :
    (buildStage tool r c fws inc fs).1 =
      (if inc = "no" then (binaryFolders r).map Event.removeDir else []) ++
        [Event.restoreCall (packagesPath r), Event.buildCall c fws] := by
  simp only [buildStage] at h ⊢
  cases hro : tool.restoreOutcome with
  | some e => rw [hro] at h; simp at h
  | none => split_ifs <;> simp

theorem pipeline_success_filters (tool : ExternalTool) (r : String)
    (a : RunOptions) (fs : List String)
    (h : (pipelineRun tool r a fs).2 = none) :
    (pipelineRun tool r a fs).1.filter Event.isBuildCall =
        [Event.buildCall a.configuration a.frameworks] ∧
      (pipelineRun tool r a fs).1.filter Event.isRunCall =
        a.frameworks.map
          (fun f => Event.runCall a.configuration f (buildRunArgs a)) := by
  simp only [pipelineRun] at h ⊢
  cases hio : tool.infoOutcome with
  | some e => rw [hio] at h; simp at h
  | none =>
    rw [hio] at h
    cases hbs :
        (buildStage tool r a.configuration a.frameworks a.incremental fs).2.2 with
    | some e => rw [hbs] at h; simp at h
    | none =>
      rw [hbs] at h
      simp at h
      have hb := buildStage_success_trace tool r a.configuration a.frameworks
        a.incremental fs hbs
      have hr := runLoop_success_trace tool a.configuration (buildRunArgs a)
        a.frameworks h
      constructor <;>
        simp [hb, hr, List.filter_append, Event.isBuildCall, Event.isRunCall,
          binaryFolders, packagesPath, workingDirectory, pathJoin,
          (filter_events_of_run_map a.configuration (buildRunArgs a) a.frameworks).1,
          (filter_events_of_run_map a.configuration (buildRunArgs a) a.frameworks).2] <;>
        (intro ev hinc hev; rcases hev with rfl | rfl | rfl <;> rfl)

theorem filter_events_of_removeDir_map (ps : List String) :
    ((ps.map Event.removeDir).filter Event.isBuildCall = []) ∧
      ((ps.map Event.removeDir).filter Event.isRunCall = []) ∧
      ((ps.map Event.removeDir).all
        (fun ev => !ev.isBuildCall && !ev.isRunCall) = true) := by
  induction ps with
  | nil => exact ⟨rfl, rfl, rfl⟩
  | cons p ps ih =>
    simp only [List.map_cons, List.filter_cons, List.all_cons]
    simp [Event.isRunCall, Event.isBuildCall, ih.1, ih.2.1, ih.2.2]

/-! ## Claim theorems -/

/-- **C1**: for every validated `RunOptions`, the extra argument group of each
run-stage invocation is assembled in exactly the fixed order: category flag
and value (if set), then corerun flag and value (if set), then cli flag and
value (if set), then the hardware-counter flag with its fixed payload (if
set), then one `--filter` flag followed by all patterns (if set), then the raw
pass-through tokens verbatim last. -/
theorem run_args_fixed_order (a : RunOptions) (h : ValidatedRunOptions a) :
    buildRunArgs a =
      ["--"]
        ++ (match a.category with
            | some c => ["--allCategories", c]
            | none => [])
        ++ (match a.corerun with
            | some p => ["--coreRun", p]
            | none => [])
        ++ (match a.cli with
            | some p => ["--cli", p]
            | none => [])
        ++ (if a.enable_pmc then ["--counters", pmcCounters] else [])
        ++ (match a.filter with
            | some l => "--filter" :: l
            | none => [])
        ++ (match a.bdn_arguments with
            | some l => l
            | none => []) := by
  obtain ⟨h1, h2, h3, h4, -⟩ := h
  rcases a with ⟨cfg, fw, inc, vb, cat, cr, cl, pmc, fil, bdn⟩
  simp only [ne_eq] at h1 h2 h3 h4
  rcases cat with - | c <;> rcases cr with - | p <;> rcases cl with - | q <;>
    rcases fil with - | l <;> rcases bdn with - | m <;>
      simp_all [buildRunArgs, truthyStr, truthyList, append_if_nonempty,
        List.isEmpty_iff] <;>
    split_ifs <;> simp_all

/-- Witness for C1: spec §8's example options produce exactly the expected
argument tail, in order. -/
theorem run_args_fixed_order_witness :
    ValidatedRunOptions specExampleOptions ∧
      buildRunArgs specExampleOptions =
        ["--", "--allCategories", "coreclr", "--coreRun", "/tools/corerun",
         "--counters", "BranchMispredictions+CacheMisses+InstructionRetired",
         "--filter", "*Sort*", "*Hash*", "--iterations", "5"] := by
  refine ⟨⟨by decide, by decide, by decide, by decide, by decide⟩, ?_⟩
  rw [run_args_fixed_order specExampleOptions
    ⟨by decide, by decide, by decide, by decide, by decide⟩]
  rfl

/-- **C10**: every assembled extra argument list begins with the literal
separator token `--`, before any optional flag group — and it is present even
when no optional flag is set at all, in which case the list is exactly
`["--"]`. -/
theorem run_args_leading_separator :
    (∀ a : RunOptions, (buildRunArgs a).head? = some "--") ∧
      buildRunArgs plainOptions = ["--"] := by
  constructor
  · intro a
    simp only [buildRunArgs]
    split_ifs <;> rfl
  · rfl

/-- **C8**: build-configuration matching is case-insensitive against the fixed
set and canonicalizes casing: an input whose casefold equals a supported
configuration's casefold validates to that canonical value; any other input
fails with an error naming the offending input verbatim. -/
theorem configuration_case_insensitive_canonical (input : String) :
    (∀ c ∈ get_supported_configurations, casefold c = casefold input →
        dotnet_configuration input = .ok c) ∧
      ((∀ c ∈ get_supported_configurations, casefold c ≠ casefold input) →
        dotnet_configuration input =
          .error ("Unknown configuration: " ++ input ++ ".")) := by
  constructor
  · intro c hc heq
    simp only [get_supported_configurations, List.mem_cons,
      List.not_mem_nil, or_false] at hc
    rcases hc with rfl | rfl
    · simp [dotnet_configuration, get_supported_configurations, List.find?,
        heq]
    · have hne : (casefold "Release" == casefold input) = false := by
        rw [← heq]; decide
      simp [dotnet_configuration, get_supported_configurations, List.find?,
        hne, heq]
  · intro hall
    have h1 : (casefold "Release" == casefold input) = false := by
      simpa [beq_eq_false_iff_ne] using
        hall "Release" (by simp [get_supported_configurations])
    have h2 : (casefold "Debug" == casefold input) = false := by
      simpa [beq_eq_false_iff_ne] using
        hall "Debug" (by simp [get_supported_configurations])
    simp [dotnet_configuration, get_supported_configurations, List.find?, h1,
      h2]

/-- Witness for C8: `RELEASE` canonicalizes to `Release`; `bogus` is rejected
with the error naming it. -/
theorem configuration_case_insensitive_canonical_witness :
    dotnet_configuration "RELEASE" = .ok "Release" ∧
      dotnet_configuration "bogus" = .error "Unknown configuration: bogus." := by
  constructor
  · exact (configuration_case_insensitive_canonical "RELEASE").1 "Release"
      (by decide) (by decide)
  · have h := (configuration_case_insensitive_canonical "bogus").2 (by decide)
    simpa using h

theorem buildStage_restore_fail (tool : ExternalTool) (r c : String)
    (fws : List String) (inc : String) (fs : List String) (e : TopException)
    (h : tool.restoreOutcome = some e) :
    (buildStage tool r c fws inc fs).1 =
        (if inc = "no" then (binaryFolders r).map Event.removeDir else []) ++
          [Event.restoreCall (packagesPath r)] ∧
      (buildStage tool r c fws inc fs).2.2 = some e := by
  constructor
  · simp only [buildStage, h]
    split_ifs <;> simp
  · simp [buildStage, h]

/-- **C5**: when the restore invocation raises, the build operation and every
run invocation are never invoked — the trace contains no build and no run
events, execution stops right after the restore event, and the process exit
code is 1. -/
theorem restore_failure_short_circuits (tool : ExternalTool) (repoRoot : String)
    (a : RunOptions) (fs : List String) (e : TopException)
    (hres : tool.restoreOutcome = some e) :
    ((pipelineRun tool repoRoot a fs).1.all
        (fun ev => !ev.isBuildCall && !ev.isRunCall)) = true ∧
      (tool.infoOutcome = none →
        (pipelineRun tool repoRoot a fs).1 =
          Event.infoCall ::
            ((if a.incremental = "no"
              then (binaryFolders repoRoot).map Event.removeDir else []) ++
              [Event.restoreCall (packagesPath repoRoot)])) ∧
      microMainExitCode ⟨none, .ok a, tool, repoRoot, fs⟩ = 1 := by
  have hb := buildStage_restore_fail tool repoRoot a.configuration a.frameworks
    a.incremental fs e hres
  have hall := filter_events_of_removeDir_map (binaryFolders repoRoot)
  cases hio : tool.infoOutcome with
  | some e2 =>
    refine ⟨?_, ?_, ?_⟩
    · simp [pipelineRun, hio, Event.isBuildCall, Event.isRunCall]
    · intro hcon; simp at hcon
    · simp [microMainExitCode, raisedException, pipelineRun, hio]
  | none =>
    refine ⟨?_, ?_, ?_⟩
    · simp only [pipelineRun, hio, hb.2, hb.1, List.all_cons, List.all_append]
      split_ifs <;> simp_all [hall.2.2, Event.isBuildCall, Event.isRunCall]
    · intro _
      simp [pipelineRun, hio, hb.2, hb.1]
    · simp [microMainExitCode, raisedException, pipelineRun, hio, hb.2]

/-- Witness for C5: with a failing restore, the concrete trace holds no build
or run event and the exit code is 1. -/
theorem restore_failure_short_circuits_witness :
    restoreFailTool.restoreOutcome =
        some (.calledProcess "dotnet restore" 1) ∧
      ((pipelineRun restoreFailTool "/repo" plainOptions []).1.all
        (fun ev => !ev.isBuildCall && !ev.isRunCall)) = true ∧
      microMainExitCode ⟨none, .ok plainOptions, restoreFailTool,
        "/repo", []⟩ = 1 := by
  refine ⟨rfl, ?_, ?_⟩
  · exact (restore_failure_short_circuits restoreFailTool "/repo" plainOptions
      [] (.calledProcess "dotnet restore" 1) rfl).1
  · exact (restore_failure_short_circuits restoreFailTool "/repo" plainOptions
      [] (.calledProcess "dotnet restore" 1) rfl).2.2

/-- **C6**: in every successful full execution the build operation is invoked
exactly once, receiving the full validated framework list in that single
invocation, and the run operation is invoked exactly once per framework, in
list order. -/
theorem build_once_run_once_per_target (tool : ExternalTool)
    (repoRoot : String) (a : RunOptions) (fs : List String)
    (h : (pipelineRun tool repoRoot a fs).2 = none) :
    (pipelineRun tool repoRoot a fs).1.filter Event.isBuildCall =
        [Event.buildCall a.configuration a.frameworks] ∧
      (pipelineRun tool repoRoot a fs).1.filter Event.isRunCall =
        a.frameworks.map
          (fun f => Event.runCall a.configuration f (buildRunArgs a)) :=
  pipeline_success_filters tool repoRoot a fs h

/-- Witness for C6: a concrete all-success execution with two targets builds
once with both frameworks and runs twice, once per framework. -/
theorem build_once_run_once_per_target_witness :
    (pipelineRun allSuccessTool "/repo" twoTargetOptions []).2 = none ∧
      (pipelineRun allSuccessTool "/repo" twoTargetOptions []).1.filter
          Event.isBuildCall =
        [Event.buildCall "Release" ["netcoreapp2.1", "netcoreapp3.0"]] ∧
      (pipelineRun allSuccessTool "/repo" twoTargetOptions []).1.filter
          Event.isRunCall =
        [Event.runCall "Release" "netcoreapp2.1" ["--"],
         Event.runCall "Release" "netcoreapp3.0" ["--"]] := by
  refine ⟨rfl, ?_, ?_⟩
  · rw [(build_once_run_once_per_target allSuccessTool "/repo" twoTargetOptions
      [] rfl).1]
    rfl
  · rw [(build_once_run_once_per_target allSuccessTool "/repo" twoTargetOptions
      [] rfl).2]
    rfl

/-- **C7**: the packages/bin/obj removal is attempted exactly when
`incremental = "no"`, always before the restore invocation, and neither the
trace nor the stage outcome depends on which directories actually exist —
removing an already-absent directory is a no-op, never an error. -/
theorem clean_before_restore_iff_incremental_no (tool : ExternalTool)
    (repoRoot c : String) (fws : List String) (inc : String)
    (fs fs2 : List String) :
    (∃ rest, (buildStage tool repoRoot c fws inc fs).1 =
        (if inc = "no"
          then (binaryFolders repoRoot).map Event.removeDir else []) ++
          Event.restoreCall (packagesPath repoRoot) :: rest ∧
        rest.all (fun ev => !ev.isRemoveDir) = true) ∧
      (buildStage tool repoRoot c fws inc fs).1 =
        (buildStage tool repoRoot c fws inc fs2).1 ∧
      (buildStage tool repoRoot c fws inc fs).2.2 =
        (buildStage tool repoRoot c fws inc fs2).2.2 ∧
      (binaryFolders repoRoot).foldl remove_directory [] = [] := by
  refine ⟨?_, ?_, ?_, ?_⟩
  · simp only [buildStage]
    cases tool.restoreOutcome with
    | some e => exact ⟨[], by split_ifs <;> simp, rfl⟩
    | none =>
      exact ⟨[Event.buildCall c fws], by split_ifs <;> simp,
        by simp [Event.isRemoveDir]⟩
  · simp only [buildStage]
    cases tool.restoreOutcome <;> split_ifs <;> simp
  · simp only [buildStage]
    cases tool.restoreOutcome <;> split_ifs <;> simp
  · simp [binaryFolders, remove_directory]

/-- **C2** (amended): for a non-empty value list containing only supported
identifiers, validation succeeds — `TargetFrameworkAction.__call__` may store
any duplicate-free listing `out` of the unique supplied values
(`list(set(values))`) — and the run stage is invoked exactly once per element
of the stored list, in the stored list's order; that order is Python set
iteration order, not necessarily first-occurrence order. -/
theorem dedup_targets_run_once_per_unique (isWin : Bool)
    (values out : List String) (tool : ExternalTool) (repoRoot : String)
    (a : RunOptions) (fs : List String)
    (hv : values ≠ [])
    (hvalid : wrongChoices (get_supported_target_frameworks isWin) values = [])
    (hout : isPySetList values out)
    (hfw : a.frameworks = out)
    (hok : (pipelineRun tool repoRoot a fs).2 = none) :
    targetFrameworkCall (get_supported_target_frameworks isWin) values
        (.stored out) ∧
      out.Nodup ∧ (∀ x, x ∈ out ↔ x ∈ values) ∧
      (pipelineRun tool repoRoot a fs).1.filter Event.isRunCall =
        out.map (fun f => Event.runCall a.configuration f (buildRunArgs a)) := by
  refine ⟨?_, hout.1,
    fun x => ⟨fun hx => hout.2.1 x hx, fun hx => hout.2.2 x hx⟩, ?_⟩
  · unfold targetFrameworkCall
    rw [if_neg hv, if_pos hvalid]
    exact ⟨out, rfl, hout⟩
  · rw [← hfw]
    exact (pipeline_success_filters tool repoRoot a fs hok).2

/-- Witness for C2 (amended), with a duplicated input value. -/
theorem dedup_targets_run_once_per_unique_witness :
    wrongChoices (get_supported_target_frameworks false)
        ["netcoreapp3.0", "netcoreapp2.1", "netcoreapp3.0"] = [] ∧
      isPySetList ["netcoreapp3.0", "netcoreapp2.1", "netcoreapp3.0"]
        ["netcoreapp2.1", "netcoreapp3.0"] ∧
      targetFrameworkCall (get_supported_target_frameworks false)
        ["netcoreapp3.0", "netcoreapp2.1", "netcoreapp3.0"]
        (.stored ["netcoreapp2.1", "netcoreapp3.0"]) ∧
      (pipelineRun allSuccessTool "/repo" twoTargetOptions []).1.filter
          Event.isRunCall =
        ["netcoreapp2.1", "netcoreapp3.0"].map
          (fun f => Event.runCall twoTargetOptions.configuration f
            (buildRunArgs twoTargetOptions)) := by
  have h := dedup_targets_run_once_per_unique false
    ["netcoreapp3.0", "netcoreapp2.1", "netcoreapp3.0"]
    ["netcoreapp2.1", "netcoreapp3.0"] allSuccessTool "/repo"
    twoTargetOptions [] (by decide) (by decide)
    ⟨by decide, by decide, by decide⟩ rfl rfl
  exact ⟨by decide, ⟨by decide, by decide, by decide⟩, h.1, h.2.2.2⟩

/-- C2 as stated is false on the code: storing `list(set(values))` guarantees
only set semantics, so the stored listing `["netcoreapp2.1", "netcoreapp3.0"]`
of the input `["netcoreapp3.0", "netcoreapp2.1"]` is admissible, and with it
the run invocations occur in an order different from the input's
first-occurrence order. -/
theorem dedup_first_occurrence_order_counterexample :
    targetFrameworkCall (get_supported_target_frameworks false)
        ["netcoreapp3.0", "netcoreapp2.1"]
        (.stored ["netcoreapp2.1", "netcoreapp3.0"]) ∧
      ["netcoreapp2.1", "netcoreapp3.0"] ≠
        dedupFirstOcc ["netcoreapp3.0", "netcoreapp2.1"] ∧
      (pipelineRun allSuccessTool "/repo" twoTargetOptions []).1.filter
          Event.isRunCall ≠
        (dedupFirstOcc ["netcoreapp3.0", "netcoreapp2.1"]).map
          (fun f => Event.runCall "Release" f
            (buildRunArgs twoTargetOptions)) := by
  refine ⟨?_, by decide, by decide⟩
  unfold targetFrameworkCall
  rw [if_neg (by decide), if_pos (by decide)]
  exact ⟨["netcoreapp2.1", "netcoreapp3.0"], rfl,
    by decide, by decide, by decide⟩

/-- **C3** (code bug): on input `["bogus1", "netcoreapp3.0", "bogus2"]` the
composed parsing of `--frameworks` raises argparse's own choices error, which
names only the first invalid value `bogus1` and not `bogus2`; the combined
error of `TargetFrameworkAction.__call__`, which does enumerate every invalid
value, is preempted by the `choices=` pre-check and never surfaces. -/
theorem invalid_targets_only_first_reported :
    frameworksParse (get_supported_target_frameworks false)
        ["bogus1", "netcoreapp3.0", "bogus2"] (.raised firstInvalidMsg) ∧
      strMentions "bogus1" firstInvalidMsg = true ∧
      strMentions "bogus2" firstInvalidMsg = false ∧
      targetFrameworkCall (get_supported_target_frameworks false)
        ["bogus1", "netcoreapp3.0", "bogus2"]
        (.raised "Invalid choice(s): bogus1, bogus2") ∧
      strMentions "bogus2" "Invalid choice(s): bogus1, bogus2" = true := by
  refine ⟨?_, by decide, by decide, ?_, by decide⟩
  · exact rfl
  · unfold targetFrameworkCall
    rw [if_neg (by decide), if_neg (by decide)]
    rfl

/-- C4 as stated is false on the code: for the argparse early-exit world
(help), no error is logged but the exit code is 1, not 0 — the
`except SystemExit: pass` clause falls through to the shared `return 1`. -/
theorem help_exit_zero_counterexample :
    raisedException helpWorld = some (.systemExit 0) ∧
      microMainLog helpWorld = [] ∧
      microMainExitCode helpWorld = 1 ∧
      microMainExitCode helpWorld ≠ 0 := by
  exact ⟨rfl, rfl, rfl, by decide⟩

/-- **C4** (amended): a user-triggered argument-parser early exit logs no
error, but the program terminates with exit code 1 — the same exit code as
validation errors, process failures, I/O failures and unexpected errors — not
with exit code 0. -/
theorem early_exit_no_log_exit_one (w : World) (c : Int)
    (h : raisedException w = some (.systemExit c)) :
    microMainLog w = [] ∧ microMainExitCode w = 1 := by
  simp [microMainLog, microMainExitCode, h, exceptionLog]

/-- Witness for C4 (amended) at the concrete help world. -/
theorem early_exit_no_log_exit_one_witness :
    raisedException helpWorld = some (.systemExit 0) ∧
      microMainLog helpWorld = [] ∧ microMainExitCode helpWorld = 1 :=
  ⟨rfl, early_exit_no_log_exit_one helpWorld 0 rfl⟩

theorem csvFirstRecord_stops_at_first_eol (rest : List Char) :
    ∀ (cs : List Char) (st : CsvState) (field : List Char)
      (fields : List String),
      (st = .startRecord ∨ st = .startField ∨ st = .inField) →
      (∀ c ∈ cs, c ≠ '\n' ∧ c ≠ '\r' ∧ c ≠ '\"') →
      csvFirstRecord st field fields (cs ++ '\n' :: rest) =
        csvFirstRecord st field fields cs := by
  intro cs
  induction cs with
  | nil =>
    intro st field fields hst _
    rcases hst with rfl | rfl | rfl <;> simp [csvFirstRecord, isEol]
  | cons c cs ih =>
    intro st field fields hst hc
    have hcn := hc c (by simp)
    have hcs : ∀ x ∈ cs, x ≠ '\n' ∧ x ≠ '\r' ∧ x ≠ '\"' :=
      fun x hx => hc x (by simp [hx])
    have heol : isEol c = false := by
      simp [isEol, hcn.1, hcn.2.1]
    have hq : (c == '\"') = false := by simp [hcn.2.2]
    rcases hst with rfl | rfl | rfl <;>
      cases hsp : (c == ' ') <;>
        simp only [List.cons_append, csvFirstRecord, heol, hq, hsp,
          Bool.false_eq_true, if_false, if_true, ite_false, ite_true] <;>
        first
          | exact ih _ _ _ (Or.inr (Or.inl rfl)) hcs
          | exact ih _ _ _ (Or.inr (Or.inr rfl)) hcs

/-- **C9**: the pass-through string is tokenized by space-delimited,
double-quote-aware CSV splitting; when the input contains several lines only
the first record is used (any second line is ignored), and empty input yields
the empty token list.  The last conjunct exhibits the quote-awareness: a
double-quoted group forms a single token. -/
theorem bdn_arguments_first_record_only (s1 s2 : String)
    (h : ∀ c ∈ s1.data, c ≠ '\n' ∧ c ≠ '\r' ∧ c ≠ '\"') :
    get_bdn_arguments (s1 ++ "\n" ++ s2) = get_bdn_arguments s1 ∧
      get_bdn_arguments "" = [] ∧
      get_bdn_arguments "a \"b c\" d" = ["a", "b c", "d"] := by
  refine ⟨?_, rfl, by decide⟩
  have hdata : (s1 ++ "\n" ++ s2).data = s1.data ++ '\n' :: s2.data := by
    have h1 : (s1 ++ "\n" ++ s2).data =
        s1.data ++ ("\n" : String).data ++ s2.data := rfl
    rw [h1, show ("\n" : String).data = ['\n'] from rfl]
    simp
  unfold get_bdn_arguments
  rw [hdata]
  exact csvFirstRecord_stops_at_first_eol s2.data s1.data .startRecord [] []
    (Or.inl rfl) h

/-- Witness for C9 at a concrete two-line input. -/
theorem bdn_arguments_first_record_only_witness :
    (∀ c ∈ ("--iterations 5" : String).data,
        c ≠ '\n' ∧ c ≠ '\r' ∧ c ≠ '\"') ∧
      get_bdn_arguments ("--iterations 5" ++ "\n" ++ "--warmup 3") =
        get_bdn_arguments "--iterations 5" ∧
      get_bdn_arguments "" = [] := by
  refine ⟨by decide, ?_, ?_⟩
  · exact (bdn_arguments_first_record_only "--iterations 5" "--warmup 3"
      (by decide)).1
  · exact (bdn_arguments_first_record_only "--iterations 5" "--warmup 3"
      (by decide)).2.1

end MicroBenchmarks
